import Mathlib

/-
Verification of the order lifecycle core of the 0x v2 starter scenarios
(src/scenarios/cancel_orders_up_to.ts, src/scenarios/fill_order_fees.ts).

The scenario scripts are sequencing glue around an external exchange
contract and SDK; the lifecycle core they exercise (order hashing,
signature authorization, epoch-based cancellation, order-state
evaluation, fill accounting) is specified in spec.md §3-§4 but its
implementation is not part of the repository sources.  Following the
spec, that core is modelled here definition by definition; the concrete
order construction of the cancellation scenario is embedded directly
from cancel_orders_up_to.ts.
-/

namespace OrderCore

/-- Addresses are modelled as natural numbers (opaque account identifiers). -/
abbrev Address := Nat

/-- Modelled from the spec: asset descriptors are "opaque encoded byte
sequences identifying asset type and location"; since the core never
inspects them, they are abstracted as opaque codes. -/
abbrev AssetData := Nat

/-- Modelled from the spec: an Order is an immutable value holding the
thirteen fields listed in spec.md §3 (exchange identifier, maker/taker/
sender/fee-recipient addresses, asset descriptors, amounts, fees,
expiration timestamp in seconds, and salt).  Amounts are unsigned
arbitrary-precision integers (Nat); the salt is an arbitrary-precision
integer (Int), so that it can be compared with the epoch registry's
sentinel value. -/
structure Order where
  exchangeAddress : Address
  makerAddress : Address
  takerAddress : Address
  senderAddress : Address
  feeRecipientAddress : Address
  makerAssetAmount : Nat
  takerAssetAmount : Nat
  makerFee : Nat
  takerFee : Nat
  expirationTimeSeconds : Nat
  salt : Int
  makerAssetData : AssetData
  takerAssetData : AssetData
deriving DecidableEq

/-- Injective encoding of an integer as a natural number, used so that the
salt field can participate in the order digest. -/
def intCode : Int → Nat
  | Int.ofNat n => 2 * n
  | Int.negSucc n => 2 * n + 1

/-- Modelled from the spec: the OrderHash is "a fixed-width digest computed
deterministically from all Order fields via a fixed, versioned encoding
scheme" with no collisions between distinct field combinations (spec.md
§3, §4.1); the repository only calls the SDK's getOrderHashHex.  The
digest is modelled as the fixed-width (13 entry) tuple of encoded fields,
which realises the spec's collision-freedom exactly. -/
abbrev OrderHash := List Nat

/-- Modelled from the spec: hash(order) is a pure total function over
Orders, folding every field into the digest (spec.md §4.1). -/
def hash (o : Order) : OrderHash :=
  [o.exchangeAddress, o.makerAddress, o.takerAddress, o.senderAddress,
   o.feeRecipientAddress, o.makerAssetAmount, o.takerAssetAmount,
   o.makerFee, o.takerFee, o.expirationTimeSeconds, intCode o.salt,
   o.makerAssetData, o.takerAssetData]

/-- Private keys are modelled as natural numbers. -/
abbrev PrivateKey := Nat

/-- Modelled from the spec: the address recovered from / associated with a
private key.  The key-to-address relation is idealised as the identity,
which keeps it injective ("that exact maker", spec.md §8). -/
def addressOf (k : PrivateKey) : Address := k

/-- Modelled from the spec: the maker's private key for a given maker
address, the inverse of addressOf under the idealisation. -/
def makerKey (a : Address) : PrivateKey := a

/-- Modelled from the spec: a Signature is an "opaque byte sequence proving
the maker authorized a given OrderHash" (spec.md §3); it is modelled as
the record of the hash that was signed and the key that signed it,
producible only through sign. -/
structure Signature where
  signedHash : OrderHash
  signerKey : PrivateKey
deriving DecidableEq

/-- Modelled from the spec: sign(orderHash, makerPrivateKey) -> Signature
(spec.md §4.2); the repository only calls the SDK's ecSignOrderHashAsync. -/
def sign (h : OrderHash) (k : PrivateKey) : Signature :=
  { signedHash := h, signerKey := k }

/-- Modelled from the spec: verify(orderHash, signature, makerAddress) ->
bool succeeds exactly when the signature was produced over this hash by
the key belonging to this address, and rejects signatures over a
different hash or by a different key (spec.md §4.2). -/
def verify (h : OrderHash) (s : Signature) (addr : Address) : Bool :=
  decide (s.signedHash = h ∧ addressOf s.signerKey = addr)

/-- Modelled from the spec: the mutable protocol state seen by the
evaluator: the Epoch Cancellation Registry (maker address to highest
cancelled salt) and the Fill Ledger (order hash to cumulative filled
taker-asset amount) (spec.md §3). -/
structure ExchangeState where
  epochs : Address → Int
  filled : OrderHash → Nat

/-- Modelled from the spec: the fresh state: every maker's epoch is the
sentinel -1, "lower than any valid salt" (spec.md §4.3), and no order has
any filled amount. -/
def initialState : ExchangeState :=
  { epochs := fun _ => -1, filled := fun _ => 0 }

/-- Modelled from the spec: currentEpoch(maker) reads the maker's stored
cancelled-up-to epoch (spec.md §4.3). -/
def currentEpoch (st : ExchangeState) (maker : Address) : Int :=
  st.epochs maker

/-- Modelled from the spec: filledAmount(hash) reads the cumulative filled
taker-asset amount recorded for an order hash (spec.md §3). -/
def filledAmount (st : ExchangeState) (h : OrderHash) : Nat :=
  st.filled h

/-- Modelled from the spec: cancelUpTo(maker, epoch) "sets the maker's
stored epoch to max(currentEpoch, epoch); returns the resulting epoch"
(spec.md §4.3); the repository only calls the SDK's cancelOrdersUpToAsync. -/
def cancelUpTo (st : ExchangeState) (maker : Address) (epoch : Int) :
    Int × ExchangeState :=
  let newEpoch := max (st.epochs maker) epoch
  (newEpoch,
   { st with epochs := fun a => if a = maker then newEpoch else st.epochs a })

/-- Modelled from the spec: recordFill(orderHash, takerAssetAmount,
orderTakerAssetAmountCap) -> (accepted, newFilled) rejects on overfill
(currentFilled + takerAssetAmount > cap), never silently clamps, and on
acceptance increments the ledger entry (spec.md §4.5).  The updated
ledger is returned alongside. -/
def recordFill (st : ExchangeState) (h : OrderHash) (amount cap : Nat) :
    Bool × Nat × ExchangeState :=
  let cur := st.filled h
  if cap < cur + amount then
    (false, cur, st)
  else
    (true, cur + amount,
     { st with filled := fun h2 => if h2 = h then cur + amount else st.filled h2 })

/-- Modelled from the spec: the order-status classification returned by the
evaluator (spec.md §4.4); FILLABLE carries the remaining fillable amount. -/
inductive OrderStatus where
  | invalidSignature
  | expired
  | cancelled
  | fullyFilled
  | fillable (remaining : Nat)
deriving DecidableEq

/-- Modelled from the spec: evaluate(order, signature, now) -> OrderStatus,
the pure decision table of spec.md §4.4, first matching condition wins:
1. INVALID_SIGNATURE if verify fails; 2. EXPIRED if expiration <= now;
3. CANCELLED if salt <= currentEpoch(maker); 4. FULLY_FILLED if
filledAmount(hash) >= takerAssetAmount; 5. otherwise FILLABLE with
remaining = takerAssetAmount - filledAmount(hash). -/
def evaluate (st : ExchangeState) (o : Order) (sig : Signature) (now : Nat) :
    OrderStatus :=
  if verify (hash o) sig o.makerAddress = false then
    OrderStatus.invalidSignature
  else if o.expirationTimeSeconds ≤ now then
    OrderStatus.expired
  else if o.salt ≤ currentEpoch st o.makerAddress then
    OrderStatus.cancelled
  else if o.takerAssetAmount ≤ filledAmount st (hash o) then
    OrderStatus.fullyFilled
  else
    OrderStatus.fillable (o.takerAssetAmount - filledAmount st (hash o))

/-- Modelled from the spec: the fee amounts paid by a fill of fillAmount
against an order: makerFeePaid = floor(makerFee * fillAmount /
takerAssetAmount) and symmetrically for takerFee, in integer arithmetic
(spec.md §4.5).  Nat division is floor division. -/
def fillFees (o : Order) (fillAmount : Nat) : Nat × Nat :=
  (o.makerFee * fillAmount / o.takerAssetAmount,
   o.takerFee * fillAmount / o.takerAssetAmount)

/-- Modelled from the spec: the states reachable from the fresh state by
the core's two mutating operations, where every fill on a hash is capped
by that order's takerAssetAmount, given by the cap assignment (spec.md
§3, §4.5). -/
inductive ReachableState (cap : OrderHash → Nat) : ExchangeState → Prop where
  | init : ReachableState cap initialState
  | cancel (st : ExchangeState) (maker : Address) (epoch : Int) :
      ReachableState cap st → ReachableState cap (cancelUpTo st maker epoch).2
  | fill (st : ExchangeState) (h : OrderHash) (amount : Nat) :
      ReachableState cap st → ReachableState cap (recordFill st h amount (cap h)).2.2

/-- One minute in milliseconds, as in cancel_orders_up_to.ts line 37. -/
def oneMinute : Nat := 60 * 1000

/-- Ten minutes in milliseconds, as in cancel_orders_up_to.ts line 38. -/
def tenMinutes : Nat := 10 * oneMinute

/-- The first order of cancel_orders_up_to.ts (lines 47-61), parametrised by
the environment-supplied exchange address, maker address, asset data,
expiration and the Date.now() reading n1 at its construction; its salt is
Date.now() - tenMinutes.  NULL_ADDRESS (the wildcard taker, sender and
fee-recipient address from ../constants, not under src/) is modelled as
address 0, and ZERO as 0. -/
def order1 (ex mk : Address) (mad tad : AssetData) (expiration n1 : Nat) : Order :=
  { exchangeAddress := ex
    makerAddress := mk
    takerAddress := 0
    senderAddress := 0
    feeRecipientAddress := 0
    makerAssetAmount := 100
    takerAssetAmount := 10
    makerFee := 0
    takerFee := 0
    expirationTimeSeconds := expiration
    salt := (n1 : Int) - (tenMinutes : Int)
    makerAssetData := mad
    takerAssetData := tad }

/-- The second order of cancel_orders_up_to.ts (lines 63-66): object spread
over order1 with salt replaced by Date.now() - oneMinute, read at time n2. -/
def order2 (ex mk : Address) (mad tad : AssetData) (expiration n1 n2 : Nat) : Order :=
  { order1 ex mk mad tad expiration n1 with salt := (n2 : Int) - (oneMinute : Int) }

/-- The third order of cancel_orders_up_to.ts (lines 68-71): object spread
over order1 with salt replaced by Date.now(), read at time n3. -/
def order3 (ex mk : Address) (mad tad : AssetData) (expiration n1 n3 : Nat) : Order :=
  { order1 ex mk mad tad expiration n1 with salt := (n3 : Int) }

/-- A concrete order used to instantiate witnesses. -/
def sampleOrder : Order :=
  { exchangeAddress := 1
    makerAddress := 2
    takerAddress := 0
    senderAddress := 0
    feeRecipientAddress := 3
    makerAssetAmount := 100
    takerAssetAmount := 10
    makerFee := 1
    takerFee := 1
    expirationTimeSeconds := 100
    salt := 5
    makerAssetData := 7
    takerAssetData := 8 }

/-- A concrete instance of the scenario's first order, with salt 1. -/
def orderA : Order := { sampleOrder with salt := 1 }

/-- A concrete instance of the scenario's second order, with salt 2. -/
def orderB : Order := { sampleOrder with salt := 2 }

/-- A concrete instance of the scenario's third order, with salt 3. -/
def orderC : Order := { sampleOrder with salt := 3 }

theorem intCode_injective (a b : Int) (h : intCode a = intCode b) : a = b := by
  cases a <;> cases b <;> simp only [intCode] at h <;>
    first
      | exact congrArg Int.ofNat (by omega)
      | exact congrArg Int.negSucc (by omega)
      | exact absurd h (by omega)

/-- C8: hash is a pure total function over Orders: two Orders with identical
field values produce the identical OrderHash, and two Orders differing in
any field (including salt) produce different hashes. -/
theorem hash_deterministic_injective :
    ∀ o1 o2 : Order, hash o1 = hash o2 ↔ o1 = o2 := by
  intro o1 o2
  constructor
  · intro h
    cases o1; cases o2
    simp only [hash, List.cons.injEq, and_true] at h
    obtain ⟨e1, e2, e3, e4, e5, e6, e7, e8, e9, e10, e11, e12, e13⟩ := h
    have e11s := intCode_injective _ _ e11
    simp_all
  · intro h
    rw [h]

/-- C9: verify(hash(order), signature, makerAddress) returns true exactly
when the signature was produced by sign(hash(order), maker's key) for that
exact maker; signatures over a different hash or by a different key are
rejected (verify returns false, a normal outcome of the total function). -/
theorem verify_iff_signed_by_maker :
    ∀ (o : Order) (s : Signature) (m : Address),
      verify (hash o) s m = true ↔ s = sign (hash o) (makerKey m) := by
  intro o s m
  cases s
  simp [verify, sign, addressOf, makerKey, Signature.mk.injEq]

/-- C2: evaluate returns exactly one of the five statuses, testing the
conditions in the fixed order INVALID_SIGNATURE, EXPIRED, CANCELLED,
FULLY_FILLED, FILLABLE with the first matching condition winning, and in
the FILLABLE case remaining = takerAssetAmount - filledAmount(hash(order)). -/
theorem evaluate_characterization :
    ∀ (st : ExchangeState) (o : Order) (sig : Signature) (now : Nat),
      (evaluate st o sig now = OrderStatus.invalidSignature ↔
        verify (hash o) sig o.makerAddress = false)
      ∧ (evaluate st o sig now = OrderStatus.expired ↔
        verify (hash o) sig o.makerAddress = true ∧
        o.expirationTimeSeconds ≤ now)
      ∧ (evaluate st o sig now = OrderStatus.cancelled ↔
        verify (hash o) sig o.makerAddress = true ∧
        now < o.expirationTimeSeconds ∧
        o.salt ≤ currentEpoch st o.makerAddress)
      ∧ (evaluate st o sig now = OrderStatus.fullyFilled ↔
        verify (hash o) sig o.makerAddress = true ∧
        now < o.expirationTimeSeconds ∧
        currentEpoch st o.makerAddress < o.salt ∧
        o.takerAssetAmount ≤ filledAmount st (hash o))
      ∧ (∀ r : Nat, evaluate st o sig now = OrderStatus.fillable r ↔
        verify (hash o) sig o.makerAddress = true ∧
        now < o.expirationTimeSeconds ∧
        currentEpoch st o.makerAddress < o.salt ∧
        filledAmount st (hash o) < o.takerAssetAmount ∧
        r = o.takerAssetAmount - filledAmount st (hash o)) := by
  intro st o sig now
  unfold evaluate
  split_ifs with h1 h2 h3 h4 <;>
    refine ⟨?_, ?_, ?_, ?_, fun r => ?_⟩ <;>
    simp_all <;>
    omega

/-- C3 counterexample: an order whose salt is at or below the maker's
current epoch but whose signature does not verify is reported
INVALID_SIGNATURE, not CANCELLED, so the cancellation report is not
independent of signature validity. -/
theorem evaluate_cancelled_depends_on_signature :
    currentEpoch (cancelUpTo initialState 2 5).2 2 ≥ sampleOrder.salt
    ∧ evaluate (cancelUpTo initialState 2 5).2 sampleOrder
        { signedHash := [], signerKey := 2 } 0 ≠ OrderStatus.cancelled := by
  decide

/-- C3 (amended): for an order whose signature verifies and that is not yet
expired (now < expirationTimeSeconds), evaluate reports CANCELLED exactly
when currentEpoch(order.makerAddress) >= order.salt, independently of the
order's fill state. -/
theorem evaluate_cancelled_iff_of_valid :
    ∀ (st : ExchangeState) (o : Order) (sig : Signature) (now : Nat),
      verify (hash o) sig o.makerAddress = true →
      now < o.expirationTimeSeconds →
      (evaluate st o sig now = OrderStatus.cancelled ↔
        currentEpoch st o.makerAddress ≥ o.salt) := by
  intro st o sig now hv hnow
  unfold evaluate
  split_ifs with h1 h2 h3 <;> simp_all <;> omega

theorem evaluate_cancelled_iff_of_valid_witness :
    verify (hash sampleOrder) (sign (hash sampleOrder) 2) 2 = true
    ∧ 0 < sampleOrder.expirationTimeSeconds
    ∧ (evaluate (cancelUpTo initialState 2 5).2 sampleOrder
          (sign (hash sampleOrder) 2) 0 = OrderStatus.cancelled ↔
        currentEpoch (cancelUpTo initialState 2 5).2 2 ≥ sampleOrder.salt) :=
  ⟨by decide, by decide,
   evaluate_cancelled_iff_of_valid (cancelUpTo initialState 2 5).2 sampleOrder
     (sign (hash sampleOrder) 2) 0 (by decide) (by decide)⟩

/-- C5 counterexample: an order past its expiration whose signature does not
verify is reported INVALID_SIGNATURE, not EXPIRED, so EXPIRED is not
reported exactly when expirationTimeSeconds <= now. -/
theorem evaluate_expired_depends_on_signature :
    sampleOrder.expirationTimeSeconds ≤ 200
    ∧ evaluate initialState sampleOrder
        { signedHash := [], signerKey := 2 } 200 ≠ OrderStatus.expired := by
  decide

/-- C5 (amended): for an order whose signature verifies, evaluate reports
EXPIRED exactly when order.expirationTimeSeconds <= now, with now supplied
by the caller, so the expiration decision is deterministic for a given
snapshot. -/
theorem evaluate_expired_iff_of_valid_signature :
    ∀ (st : ExchangeState) (o : Order) (sig : Signature) (now : Nat),
      verify (hash o) sig o.makerAddress = true →
      (evaluate st o sig now = OrderStatus.expired ↔
        o.expirationTimeSeconds ≤ now) := by
  intro st o sig now hv
  unfold evaluate
  split_ifs with h1 h2 h3 h4 <;> simp_all

theorem evaluate_expired_iff_of_valid_signature_witness :
    verify (hash sampleOrder) (sign (hash sampleOrder) 2) 2 = true
    ∧ (evaluate initialState sampleOrder (sign (hash sampleOrder) 2) 200
          = OrderStatus.expired ↔
        sampleOrder.expirationTimeSeconds ≤ 200) :=
  ⟨by decide,
   evaluate_expired_iff_of_valid_signature initialState sampleOrder
     (sign (hash sampleOrder) 2) 200 (by decide)⟩

/-- C4 counterexample: when the maker's epoch is already 100, calling
cancelUpTo(maker, 5) and then cancelUpTo(maker, 5) (e' = e = 5, e' <= e)
leaves the epoch at 100, not at e = 5, so the two-call consequence does
not hold unconditionally. -/
theorem cancelUpTo_sequential_counterexample :
    currentEpoch (cancelUpTo (cancelUpTo (cancelUpTo initialState 2 100).2
        2 5).2 2 5).2 2 = 100
    ∧ (100 : Int) ≠ 5 := by
  decide

/-- C4 (amended): cancelUpTo(maker, epoch) sets the maker's stored epoch to
max(currentEpoch, epoch) and returns the resulting epoch; a maker's epoch
never decreases; and provided the maker's epoch does not already exceed e,
cancelUpTo(maker, e) followed by cancelUpTo(maker, e') with e' <= e leaves
currentEpoch(maker) = e (monotonic idempotence: the second call is a
no-op, not an error). -/
theorem cancelUpTo_max_monotonic :
    ∀ (st : ExchangeState) (maker : Address) (epoch : Int),
      (cancelUpTo st maker epoch).1 = max (currentEpoch st maker) epoch
      ∧ currentEpoch (cancelUpTo st maker epoch).2 maker
          = max (currentEpoch st maker) epoch
      ∧ currentEpoch st maker ≤ currentEpoch (cancelUpTo st maker epoch).2 maker
      ∧ (∀ e2 : Int, e2 ≤ epoch → currentEpoch st maker ≤ epoch →
          currentEpoch (cancelUpTo (cancelUpTo st maker epoch).2 maker e2).2 maker
            = epoch) := by
  intro st maker epoch
  refine ⟨rfl, by simp [cancelUpTo, currentEpoch], ?_, ?_⟩
  · have h2 : currentEpoch (cancelUpTo st maker epoch).2 maker
        = max (currentEpoch st maker) epoch := by
      simp [cancelUpTo, currentEpoch]
    rw [h2]
    exact le_max_left _ _
  · intro e2 he2 hcur
    have h2 : currentEpoch (cancelUpTo (cancelUpTo st maker epoch).2 maker e2).2
        maker = max (max (currentEpoch st maker) epoch) e2 := by
      simp [cancelUpTo, currentEpoch]
    rw [h2, max_eq_right hcur, max_eq_left he2]

theorem cancelUpTo_max_monotonic_witness :
    ((5 : Int) ≤ 5 ∧ currentEpoch initialState 2 ≤ 5)
    ∧ currentEpoch (cancelUpTo (cancelUpTo initialState 2 5).2 2 5).2 2 = 5 :=
  ⟨⟨by decide, by decide⟩,
   (cancelUpTo_max_monotonic initialState 2 5).2.2.2 5 (by decide) (by decide)⟩

/-- C6: fees scale with the filled fraction in integer (floor) arithmetic:
fillFees pays makerFeePaid = floor(makerFee * fillAmount /
takerAssetAmount) and symmetrically for takerFee; a full fill pays the
full fees exactly, and in particular an order with makerFee = 1,
takerFee = 1, takerAssetAmount = 10 filled with 10 pays (1, 1), with no
rounding loss at full fill. -/
theorem fillFees_floor_policy :
    ∀ (o : Order) (fillAmt : Nat),
      fillFees o fillAmt
        = (o.makerFee * fillAmt / o.takerAssetAmount,
           o.takerFee * fillAmt / o.takerAssetAmount)
      ∧ (0 < o.takerAssetAmount → fillAmt = o.takerAssetAmount →
          fillFees o fillAmt = (o.makerFee, o.takerFee))
      ∧ (o.makerFee = 1 → o.takerFee = 1 → o.takerAssetAmount = 10 →
          fillAmt = 10 → fillFees o fillAmt = (1, 1)) := by
  intro o fillAmt
  refine ⟨rfl, ?_, ?_⟩
  · intro hpos hfull
    subst hfull
    simp [fillFees, Nat.mul_div_cancel _ hpos]
  · intro hmf htf hcap hfill
    subst hfill
    simp [fillFees, hmf, htf, hcap]

theorem fillFees_floor_policy_witness :
    (sampleOrder.makerFee = 1 ∧ sampleOrder.takerFee = 1
      ∧ sampleOrder.takerAssetAmount = 10)
    ∧ fillFees sampleOrder 10 = (1, 1) :=
  ⟨⟨rfl, rfl, rfl⟩, (fillFees_floor_policy sampleOrder 10).2.2 rfl rfl rfl rfl⟩

/-- C7: recordFill rejects (accepted = false) whenever currentFilled +
amount exceeds the cap, leaving the ledger unchanged (never clamping); in
every state reachable by the core's operations each order hash's filled
amount stays at or below its cap; and an order already fully filled is
reported FULLY_FILLED by evaluate both before and after a rejected
positive-amount fill attempt. -/
theorem recordFill_no_overfill :
    (∀ (st : ExchangeState) (h : OrderHash) (amount cap : Nat),
      cap < filledAmount st h + amount →
      (recordFill st h amount cap).1 = false
      ∧ (recordFill st h amount cap).2.2 = st)
    ∧ (∀ (cap : OrderHash → Nat) (st : ExchangeState),
        ReachableState cap st → ∀ h : OrderHash, filledAmount st h ≤ cap h)
    ∧ (∀ (st : ExchangeState) (o : Order) (sig : Signature) (now amount : Nat),
        verify (hash o) sig o.makerAddress = true →
        now < o.expirationTimeSeconds →
        currentEpoch st o.makerAddress < o.salt →
        o.takerAssetAmount ≤ filledAmount st (hash o) →
        0 < amount →
        evaluate st o sig now = OrderStatus.fullyFilled
        ∧ (recordFill st (hash o) amount o.takerAssetAmount).1 = false
        ∧ evaluate (recordFill st (hash o) amount o.takerAssetAmount).2.2 o sig now
            = OrderStatus.fullyFilled) := by
  refine ⟨?_, ?_, ?_⟩
  · intro st h amount cap hover
    have hover2 : cap < st.filled h + amount := hover
    simp only [recordFill, if_pos hover2]
    exact ⟨trivial, trivial⟩
  · intro cap st hreach
    induction hreach with
    | init => intro h2; exact Nat.zero_le _
    | cancel st maker epoch _ ih => intro h2; exact ih h2
    | fill st h amount _ ih =>
        intro h2
        simp only [recordFill, filledAmount]
        split_ifs with hc
        · exact ih h2
        · by_cases he : h2 = h
          · subst he
            show (if h2 = h2 then st.filled h2 + amount else st.filled h2) ≤ cap h2
            rw [if_pos rfl]
            omega
          · show (if h2 = h then st.filled h + amount else st.filled h2) ≤ cap h2
            rw [if_neg he]
            exact ih h2
  · intro st o sig now amount hver hnow hep hfull hpos
    have c1 : ¬ (verify (hash o) sig o.makerAddress = false) := by simp [hver]
    have c2 : ¬ (o.expirationTimeSeconds ≤ now) := not_le.mpr hnow
    have c3 : ¬ (o.salt ≤ currentEpoch st o.makerAddress) := not_le.mpr hep
    have h1 : evaluate st o sig now = OrderStatus.fullyFilled := by
      unfold evaluate
      rw [if_neg c1, if_neg c2, if_neg c3, if_pos hfull]
    have hrej : o.takerAssetAmount < st.filled (hash o) + amount := by
      have hf2 : o.takerAssetAmount ≤ st.filled (hash o) := hfull
      omega
    have hstate : (recordFill st (hash o) amount o.takerAssetAmount).2.2 = st := by
      simp only [recordFill]
      rw [if_pos hrej]
    have haccept : (recordFill st (hash o) amount o.takerAssetAmount).1 = false := by
      simp only [recordFill]
      rw [if_pos hrej]
    refine ⟨h1, haccept, ?_⟩
    rw [hstate]
    exact h1

theorem recordFill_no_overfill_witness :
    ((recordFill initialState (hash sampleOrder) 11 10).1 = false
      ∧ (recordFill initialState (hash sampleOrder) 11 10).2.2 = initialState)
    ∧ filledAmount initialState (hash sampleOrder) ≤ 10
    ∧ (evaluate (recordFill initialState (hash sampleOrder) 10 10).2.2 sampleOrder
          (sign (hash sampleOrder) 2) 0 = OrderStatus.fullyFilled
       ∧ (recordFill (recordFill initialState (hash sampleOrder) 10 10).2.2
            (hash sampleOrder) 1 sampleOrder.takerAssetAmount).1 = false
       ∧ evaluate (recordFill (recordFill initialState (hash sampleOrder) 10 10).2.2
            (hash sampleOrder) 1 sampleOrder.takerAssetAmount).2.2 sampleOrder
            (sign (hash sampleOrder) 2) 0 = OrderStatus.fullyFilled) := by
  obtain ⟨ha, hb, hc⟩ := recordFill_no_overfill
  exact ⟨ha initialState (hash sampleOrder) 11 10 (by decide),
         hb (fun _ => 10) initialState ReachableState.init (hash sampleOrder),
         hc (recordFill initialState (hash sampleOrder) 10 10).2.2 sampleOrder
           (sign (hash sampleOrder) 2) 0 1 (by decide) (by decide) (by decide)
           (by decide) (by decide)⟩

/-- C1: for a maker with orders A, B, C sharing the maker address, with
valid salts strictly increasing (0 <= A.salt < B.salt < C.salt), valid
signatures, none expired and C not filled, after the maker calls
cancelUpTo(maker, B.salt) on the fresh state, evaluate classifies A as
CANCELLED, B as CANCELLED (the order whose salt equals the target epoch
is cancelled), and C as FILLABLE with its full amount remaining. -/
theorem evaluate_cancelUpTo_scenario :
    ∀ (oa ob oc : Order) (sa sb sc : Signature) (now : Nat),
      ob.makerAddress = oa.makerAddress →
      oc.makerAddress = oa.makerAddress →
      0 ≤ oa.salt → oa.salt < ob.salt → ob.salt < oc.salt →
      verify (hash oa) sa oa.makerAddress = true →
      verify (hash ob) sb ob.makerAddress = true →
      verify (hash oc) sc oc.makerAddress = true →
      now < oa.expirationTimeSeconds →
      now < ob.expirationTimeSeconds →
      now < oc.expirationTimeSeconds →
      0 < oc.takerAssetAmount →
      evaluate (cancelUpTo initialState oa.makerAddress ob.salt).2 oa sa now
          = OrderStatus.cancelled
      ∧ evaluate (cancelUpTo initialState oa.makerAddress ob.salt).2 ob sb now
          = OrderStatus.cancelled
      ∧ evaluate (cancelUpTo initialState oa.makerAddress ob.salt).2 oc sc now
          = OrderStatus.fillable oc.takerAssetAmount := by
  intro oa ob oc sa sb sc now hmb hmc h0 hab hbc hva hvb hvc hea heb hec hcap
  set E := (cancelUpTo initialState oa.makerAddress ob.salt).2 with hE
  have hEmax : currentEpoch E oa.makerAddress = max (-1) ob.salt := by
    simp [hE, cancelUpTo, currentEpoch, initialState]
  have hEa : currentEpoch E oa.makerAddress = ob.salt := by
    rw [hEmax]
    exact max_eq_right (by omega)
  have hca1 : ¬ (verify (hash oa) sa oa.makerAddress = false) := by simp [hva]
  have hca2 : ¬ (oa.expirationTimeSeconds ≤ now) := not_le.mpr hea
  have hca3 : oa.salt ≤ currentEpoch E oa.makerAddress := by
    rw [hEa]
    exact le_of_lt hab
  have hA : evaluate E oa sa now = OrderStatus.cancelled := by
    unfold evaluate
    rw [if_neg hca1, if_neg hca2, if_pos hca3]
  have hcb1 : ¬ (verify (hash ob) sb ob.makerAddress = false) := by simp [hvb]
  have hcb2 : ¬ (ob.expirationTimeSeconds ≤ now) := not_le.mpr heb
  have hcb3 : ob.salt ≤ currentEpoch E ob.makerAddress := by
    rw [hmb, hEa]
  have hB : evaluate E ob sb now = OrderStatus.cancelled := by
    unfold evaluate
    rw [if_neg hcb1, if_neg hcb2, if_pos hcb3]
  have hcc1 : ¬ (verify (hash oc) sc oc.makerAddress = false) := by simp [hvc]
  have hcc2 : ¬ (oc.expirationTimeSeconds ≤ now) := not_le.mpr hec
  have hcc3 : ¬ (oc.salt ≤ currentEpoch E oc.makerAddress) := by
    rw [hmc, hEa]
    exact not_le.mpr hbc
  have hfilled : filledAmount E (hash oc) = 0 := rfl
  have hcc4 : ¬ (oc.takerAssetAmount ≤ filledAmount E (hash oc)) := by
    rw [hfilled]
    omega
  have hC : evaluate E oc sc now = OrderStatus.fillable oc.takerAssetAmount := by
    unfold evaluate
    rw [if_neg hcc1, if_neg hcc2, if_neg hcc3, if_neg hcc4, hfilled, Nat.sub_zero]
  exact ⟨hA, hB, hC⟩

theorem evaluate_cancelUpTo_scenario_witness :
    ((0 : Int) ≤ orderA.salt ∧ orderA.salt < orderB.salt
      ∧ orderB.salt < orderC.salt)
    ∧ evaluate (cancelUpTo initialState orderA.makerAddress orderB.salt).2 orderA
        (sign (hash orderA) 2) 0 = OrderStatus.cancelled
    ∧ evaluate (cancelUpTo initialState orderA.makerAddress orderB.salt).2 orderB
        (sign (hash orderB) 2) 0 = OrderStatus.cancelled
    ∧ evaluate (cancelUpTo initialState orderA.makerAddress orderB.salt).2 orderC
        (sign (hash orderC) 2) 0 = OrderStatus.fillable orderC.takerAssetAmount := by
  have h := evaluate_cancelUpTo_scenario orderA orderB orderC
    (sign (hash orderA) 2) (sign (hash orderB) 2) (sign (hash orderC) 2) 0
    rfl rfl (by decide) (by decide) (by decide) (by decide) (by decide)
    (by decide) (by decide) (by decide) (by decide) (by decide)
  exact ⟨⟨by decide, by decide, by decide⟩, h.1, h.2.1, h.2.2⟩

/-- C10: in the cancellation scenario, whenever the successive Date.now()
readings n1 <= n2 <= n3, order2 and order3 agree with order1 on every
field except the salt, the three salts are strictly increasing, and the
target epoch order2.salt invalidates (salt <= epoch) exactly order1 and
order2, not order3. -/
theorem cancel_scenario_orders_frame :
    ∀ (ex mk : Address) (mad tad : AssetData) (expiration n1 n2 n3 : Nat),
      n1 ≤ n2 → n2 ≤ n3 →
      order2 ex mk mad tad expiration n1 n2
        = { order1 ex mk mad tad expiration n1 with
            salt := (order2 ex mk mad tad expiration n1 n2).salt }
      ∧ order3 ex mk mad tad expiration n1 n3
        = { order1 ex mk mad tad expiration n1 with
            salt := (order3 ex mk mad tad expiration n1 n3).salt }
      ∧ (order1 ex mk mad tad expiration n1).salt
          < (order2 ex mk mad tad expiration n1 n2).salt
      ∧ (order2 ex mk mad tad expiration n1 n2).salt
          < (order3 ex mk mad tad expiration n1 n3).salt
      ∧ ((order1 ex mk mad tad expiration n1).salt
            ≤ (order2 ex mk mad tad expiration n1 n2).salt
         ∧ (order2 ex mk mad tad expiration n1 n2).salt
            ≤ (order2 ex mk mad tad expiration n1 n2).salt
         ∧ ¬ ((order3 ex mk mad tad expiration n1 n3).salt
            ≤ (order2 ex mk mad tad expiration n1 n2).salt)) := by
  intro ex mk mad tad expiration n1 n2 n3 h12 h23
  refine ⟨rfl, rfl, ?_, ?_, ?_, le_refl _, ?_⟩ <;>
    simp only [order1, order2, order3, oneMinute, tenMinutes] <;>
    omega

theorem cancel_scenario_orders_frame_witness :
    ((1000000 : Nat) ≤ 1000000)
    ∧ (order1 1 2 3 4 5 1000000).salt < (order2 1 2 3 4 5 1000000 1000000).salt
    ∧ (order2 1 2 3 4 5 1000000 1000000).salt
        < (order3 1 2 3 4 5 1000000 1000000).salt := by
  have h := cancel_scenario_orders_frame 1 2 3 4 5 1000000 1000000 1000000
    (by decide) (by decide)
  exact ⟨by decide, h.2.2.1, h.2.2.2.1⟩

end OrderCore
